import Mathlib

/-!
# TaskPilot: a verified shallow embedding of the command pipeline

This development embeds the task-management pipeline of `main.py`:
the task store (`TaskManager`), the field normalizer
(`update_tasks_from_llm` together with `Task.__init__`), the deterministic
fallback interpreter (`LLMProcessor.fallback_process`), the LLM interpreter
(`LLMProcessor.process_command`) and the command orchestrator
(`TaskManager.process_command`).

Python strings are modelled as `List Char` (wrapped in `String` at the
boundaries); Python `None` becomes `Option`; exceptions become `Except`;
in-place mutation of the store becomes explicit state passing on the
`TaskManager` structure.  The external LLM collaborator is modelled as an
oracle value (`LLMReply`) covering every observable shape of its answer.
Wall-clock timestamps (`datetime.datetime.now().isoformat()`) are modelled
by threading an explicit `now : String` parameter to every construction
site.
-/

namespace TaskPilot

/-! ## Python string primitives -/

/-- Python's `\s` / `str.strip` whitespace class (ASCII fragment):
space, tab, newline, carriage return, vertical tab, form feed. -/
def pyIsSpace (c : Char) : Bool :=
  c = ' ' || c = '\t' || c = '\n' || c = '\r' || c = '\x0b' || c = '\x0c'

/-- Python `str.lower()` (ASCII fragment, which is all the pipeline's
keyword tables use). -/
def pyLower (s : List Char) : List Char :=
  s.map Char.toLower

/-- Python `str.strip()`: drop leading and trailing whitespace. -/
def pyStrip (s : List Char) : List Char :=
  ((s.dropWhile pyIsSpace).reverse.dropWhile pyIsSpace).reverse

/-- Python `pat in s` substring containment test. -/
def hasSub (s pat : List Char) : Bool :=
  pat.isPrefixOf s ||
    match s with
    | [] => false
    | _ :: rest => hasSub rest pat

/-- Index of the leftmost occurrence of `pat` in `s` (the position at which
`re.search` for a literal pattern succeeds). -/
def findSub (s pat : List Char) : Option Nat :=
  if pat.isPrefixOf s then some 0
  else
    match s with
    | [] => none
    | _ :: rest => (findSub rest pat).map (· + 1)

/-- Python `s.split(",")` on character lists. -/
def pySplitComma (s : List Char) : List (List Char) :=
  match s with
  | [] => [[]]
  | c :: rest =>
    let r := pySplitComma rest
    if c = ',' then [] :: r
    else
      match r with
      | [] => [[c]]
      | piece :: pieces => (c :: piece) :: pieces

/-! ## Data model (`Priority`, `TaskStatus`, `Task`, pydantic models) -/

/-- `class Priority(str, Enum)` of `main.py`. -/
inductive Priority
  | low
  | medium
  | high
  | urgent
deriving DecidableEq, Repr

/-- `class TaskStatus(str, Enum)` of `main.py`. -/
inductive TaskStatus
  | todo
  | in_progress
  | done
deriving DecidableEq, Repr

/-- `class Task(BaseModel)` of `main.py`.  `created_at` is `Optional[str]`;
the constructor-level auto-fill of `created_at` lives at each construction
site (`mkTaskFromDict`, the fallback interpreter) because it depends on the
wall clock, modelled by an explicit `now` argument. -/
structure Task where
  id : Option Int
  title : String
  description : Option String
  priority : Priority
  due_date : Option String
  status : TaskStatus
  tags : List String
  created_at : Option String
deriving DecidableEq, Repr

/-- `class TaskManager` state: the authoritative list and the next-id
counter (`self.tasks`, `self.next_id`). -/
structure TaskManager where
  tasks : List Task
  next_id : Int
deriving DecidableEq, Repr

/-- The `{success, message, tasks}` response dict built by
`TaskManager.process_command` (and the `TaskResponse` pydantic model). -/
structure TaskResponse where
  success : Bool
  message : String
  tasks : List Task
deriving DecidableEq, Repr

/-! ## Task Store operations -/

/-- `TaskManager._assign_task_id`: stamp `next_id` onto a task lacking an
id and bump the counter. -/
def assignTaskId (m : TaskManager) (t : Task) : Task × TaskManager :=
  if t.id = none then
    ({ t with id := some m.next_id }, { m with next_id := m.next_id + 1 })
  else
    (t, m)

/-- `TaskManager.add_task`. -/
def addTask (m : TaskManager) (t : Task) : Task × TaskManager :=
  let (t', m') := assignTaskId m t
  (t', { m' with tasks := m'.tasks ++ [t'] })

/-- `TaskManager.get_task`: first task whose id matches, if any. -/
def getTask (m : TaskManager) (task_id : Int) : Option Task :=
  m.tasks.find? (fun t => t.id = some task_id)

/-- Python falsiness of `Optional[str]` (`if not updated_task.created_at`):
`None` and the empty string are falsy. -/
def pyFalsyStr : Option String → Bool
  | none => true
  | some s => s.isEmpty

/-- Loop body of `TaskManager.update_task` over `self.tasks`: replace the
first task whose id matches, forcing the id and back-filling a falsy
`created_at` from the old task. -/
def updateTaskAux (task_id : Int) (updated : Task) :
    List Task → Option Task × List Task
  | [] => (none, [])
  | t :: ts =>
    if t.id = some task_id then
      let u := { updated with
        id := some task_id,
        created_at :=
          if pyFalsyStr updated.created_at then t.created_at
          else updated.created_at }
      (some u, u :: ts)
    else
      let (r, ts') := updateTaskAux task_id updated ts
      (r, t :: ts')

/-- `TaskManager.update_task`. -/
def updateTask (m : TaskManager) (task_id : Int) (updated : Task) :
    Option Task × TaskManager :=
  let (r, ts') := updateTaskAux task_id updated m.tasks
  (r, { m with tasks := ts' })

/-- `TaskManager.delete_task`: pop the first task whose id matches. -/
def deleteTaskAux (task_id : Int) : List Task → Bool × List Task
  | [] => (false, [])
  | t :: ts =>
    if t.id = some task_id then (true, ts)
    else
      let (b, ts') := deleteTaskAux task_id ts
      (b, t :: ts')

/-- `TaskManager.delete_task`. -/
def deleteTask (m : TaskManager) (task_id : Int) : Bool × TaskManager :=
  let (b, ts') := deleteTaskAux task_id m.tasks
  (b, { m with tasks := ts' })

/-! ## Field Normalizer (`TaskManager.update_tasks_from_llm` helpers) -/

/-- `[p.value for p in Priority]`. -/
def canonicalPriorityStrings : List String :=
  ["low", "medium", "high", "urgent"]

/-- `[s.value for s in TaskStatus]`. -/
def canonicalStatusStrings : List String :=
  ["todo", "in_progress", "done"]

/-- The `priority_map` dict of `update_tasks_from_llm`, as
`priority_map.get key` (so `none` means key absent). -/
def priorityMap (s : String) : Option Priority :=
  if s = "critical" then some .urgent
  else if s = "urgent" then some .urgent
  else if s = "high" then some .high
  else if s = "medium" then some .medium
  else if s = "normal" then some .medium
  else if s = "low" then some .low
  else none

/-- The `status_map` dict of `update_tasks_from_llm`, as
`status_map.get key`. -/
def statusMap (s : String) : Option TaskStatus :=
  if s = "to do" then some .todo
  else if s = "todo" then some .todo
  else if s = "in progress" then some .in_progress
  else if s = "in-progress" then some .in_progress
  else if s = "done" then some .done
  else if s = "completed" then some .done
  else if s = "finished" then some .done
  else none

/-- Pydantic's parse of a canonical priority string into the enum (only
ever applied to members of `canonicalPriorityStrings`). -/
def parsePriority (s : String) : Priority :=
  if s = "low" then .low
  else if s = "medium" then .medium
  else if s = "high" then .high
  else .urgent

/-- Pydantic's parse of a canonical status string into the enum. -/
def parseStatus (s : String) : TaskStatus :=
  if s = "todo" then .todo
  else if s = "in_progress" then .in_progress
  else .done

/-- Python `str.lower` on `String`. -/
def pyLowerStr (s : String) : String :=
  ⟨pyLower s.data⟩

/-- Net effect of the priority clean-up in `update_tasks_from_llm` on a
string value present under the `"priority"` key: canonical values are left
for pydantic to parse; anything else goes through
`priority_map.get(str(v).lower(), Priority.MEDIUM)`. -/
def normalizePriority (s : String) : Priority :=
  if canonicalPriorityStrings.contains s then parsePriority s
  else (priorityMap (pyLowerStr s)).getD .medium

/-- Net effect of the status clean-up in `update_tasks_from_llm` on a
string value present under the `"status"` key. -/
def normalizeStatus (s : String) : TaskStatus :=
  if canonicalStatusStrings.contains s then parseStatus s
  else (statusMap (pyLowerStr s)).getD .todo

/-- The value stored under the `"tags"` key of a JSON task fragment:
either a single string or a list of strings. -/
inductive TagsVal
  | str (s : String)
  | lst (l : List String)
deriving DecidableEq, Repr

/-- `[tag.strip() for tag in s.split(",")]`. -/
def splitTags (s : String) : List String :=
  (pySplitComma s.data).map (fun piece => (⟨pyStrip piece⟩ : String))

/-- A JSON object task fragment as fed to `Task(**task_dict)`.  A field is
`none` when the key is absent (pydantic then applies the model default);
`created_at` distinguishes an absent key (`none`) — which makes
`Task.__init__` stamp the current time — from a key present with `null`
or a string (`some v`), which is kept verbatim. -/
structure TaskDict where
  id : Option Int
  title : Option String
  description : Option String
  priority : Option String
  due_date : Option String
  status : Option String
  tags : Option TagsVal
  created_at : Option (Option String)
deriving DecidableEq, Repr

/-- One iteration of the conversion loop of `update_tasks_from_llm` on a
JSON object fragment: tag splitting, priority/status synonym mapping, then
`Task(**task_dict)` (whose `__init__` stamps `created_at := now` exactly
when the key is absent).  Returns `none` when pydantic validation fails —
the only failing rule on this shape is a missing `title` — so the fragment
is dropped. -/
def mkTaskFromDict (d : TaskDict) (now : String) : Option Task :=
  match d.title with
  | none => none
  | some title =>
    some {
      id := d.id
      title := title
      description := d.description
      priority := match d.priority with
        | none => .medium
        | some p => normalizePriority p
      due_date := d.due_date
      status := match d.status with
        | none => .todo
        | some s => normalizeStatus s
      tags := match d.tags with
        | none => []
        | some (.str s) => splitTags s
        | some (.lst l) => l
      created_at := match d.created_at with
        | none => some now
        | some v => v }

/-- One element of the `llm_tasks` argument of `update_tasks_from_llm`.
`obj` is a pydantic `Task` object (as the fallback interpreter and the
default branches of the LLM interpreter return): it has no `.get` method,
so the very first statement of the conversion loop raises
`AttributeError`, the `except` swallows it, and the element is dropped.
`nonDict` is any other non-dict JSON value in the list (string, number…),
dropped for the same reason. -/
inductive Fragment
  | obj (t : Task)
  | dict (d : TaskDict)
  | nonDict (desc : String)
deriving DecidableEq, Repr

/-- The run-time value of `result["tasks"]` handed to
`update_tasks_from_llm`.  `notIterable` stands for a JSON `null`, number
or boolean there: the `for` loop raises `TypeError` before anything is
committed (a JSON string would instead iterate over its characters, each
dropped — representable as `list` of `nonDict` fragments). -/
inductive TasksPayload
  | list (fs : List Fragment)
  | notIterable (desc : String)
deriving DecidableEq, Repr

/-- The conversion loop body of `update_tasks_from_llm`: `none` means the
fragment raised and was skipped. -/
def convertFragment (f : Fragment) (now : String) : Option Task :=
  match f with
  | .obj _ => none
  | .dict d => mkTaskFromDict d now
  | .nonDict _ => none

/-- The `for task in new_tasks: if task.id is None: …_assign_task_id…`
loop of `update_tasks_from_llm`. -/
def assignIds (m : TaskManager) : List Task → List Task × TaskManager
  | [] => ([], m)
  | t :: ts =>
    if t.id = none then
      let (t', m') := assignTaskId m t
      let (rest, m'') := assignIds m' ts
      (t' :: rest, m'')
    else
      let (rest, m') := assignIds m ts
      (t :: rest, m')

/-- `TaskManager.update_tasks_from_llm`: convert fragments (dropping the
ones that raise), assign fresh ids to id-less tasks, then replace
`self.tasks` wholesale.  `Except.error` models an exception escaping to
the caller (iterating a non-iterable payload), raised before any state is
touched. -/
def updateTasksFromLLM (payload : TasksPayload) (now : String)
    (m : TaskManager) : Except String TaskManager :=
  match payload with
  | .notIterable desc => .error desc
  | .list fs =>
    let new_tasks := fs.filterMap (fun f => convertFragment f now)
    let (assigned, m1) := assignIds m new_tasks
    .ok { m1 with tasks := assigned }

/-! ## LLM Interpreter (`LLMProcessor.process_command`) -/

/-- Index (from the end of the list, counted from the front) of the last
occurrence of `c` in `s`. -/
def lastIdxOf (s : List Char) (c : Char) : Option Nat :=
  match s with
  | [] => none
  | a :: rest =>
    match lastIdxOf rest c with
    | some j => some (j + 1)
    | none => if a = c then some 0 else none

/-- `re.search(r'```json\s*([\s\S]*?)\s*```', s)`: scan left to right for
the first position where a ```` ```json ```` opener has a ```` ``` ````
closer somewhere after it; the group is the text between them, ending at
the earliest closer (lazy quantifier) and trimmed of surrounding
whitespace (the two `\s*`). -/
def extractFencedAux (s : List Char) : Option (List Char) :=
  match s with
  | [] => none
  | a :: rest =>
    if ("```json".data).isPrefixOf (a :: rest) then
      match findSub ((a :: rest).drop 7) "```".data with
      | some j => some (pyStrip (((a :: rest).drop 7).take j))
      | none => extractFencedAux rest
    else extractFencedAux rest

/-- `re.search(r'(\{[\s\S]*\})', s)`: scan left to right for the first
`{` that has some `}` after it; the greedy `[\s\S]*` then extends the
match to the *last* `}` of the whole text. -/
def braceScan (s : List Char) : Option (List Char) :=
  match s with
  | [] => none
  | a :: rest =>
    if a = '\x7b' then
      match lastIdxOf (a :: rest) '\x7d' with
      | some j => if 0 < j then some ((a :: rest).take (j + 1)) else braceScan rest
      | none => braceScan rest
    else braceScan rest

/-- The two-tier JSON extraction of `LLMProcessor.process_command`
(lines 112–125): fenced block first, bare brace span second. -/
def extractJson (body : String) : Option String :=
  match extractFencedAux body.data with
  | some c => some ⟨c⟩
  | none => (braceScan body.data).map (fun c => (⟨c⟩ : String))

/-- The fields `LLMProcessor.process_command` reads off a successfully
`json.loads`-parsed object: `message`, `action` (each `none` when the key
is absent) and `tasks` (as the loose payload later fed to
`update_tasks_from_llm`). -/
structure ParsedResponse where
  message : Option String
  action : Option String
  tasks : Option TasksPayload
deriving DecidableEq, Repr

/-- Outcome of `json.loads` on the extracted span. `failed` is a
`json.JSONDecodeError` (caught locally, line 135); `nonObject` is a parse
to a non-dict value, on which `parsed_response.get` raises
`AttributeError` — *not* a `JSONDecodeError`, so it escapes to the outer
`except` of line 142. -/
inductive ParseOutcome
  | failed
  | nonObject (errDesc : String)
  | okObj (p : ParsedResponse)
deriving DecidableEq, Repr

/-- Observable answer of the external LLM collaborator (plus the oracle
outcome of parsing its extracted span).  `exn` covers a transport error,
timeout, or any other exception inside the `try` (caught at line 142);
`badStatus` is `response.status_code != 200` with `response.text`;
`okBody` is a 200 response whose JSON body's `"response"` field holds the
given raw text (an absent field yields `""`). -/
inductive LLMReply
  | exn (msg : String)
  | badStatus (text : String)
  | okBody (responseText : String) (parse : ParseOutcome)
deriving DecidableEq, Repr

/-- The result dict produced by both interpreters: `{success, message,
tasks}` plus the `action` key (absent, `none`, on the failure dicts). -/
structure LLMResult where
  success : Bool
  message : String
  tasks : TasksPayload
  action : Option String
deriving DecidableEq, Repr

/-- A `"tasks"` value that is a Python list of `Task` *objects* (the
failure dicts of the LLM interpreter and every dict of the fallback
interpreter carry the live task list, not JSON dicts). -/
def objList (ts : List Task) : TasksPayload :=
  .list (ts.map .obj)

/-- `LLMProcessor.process_command` (the command string only feeds the
prompt, so the observable behaviour is a function of the reply oracle and
of the current tasks). -/
def llmProcessCommand (reply : LLMReply) (tasks : List Task) : LLMResult :=
  match reply with
  | .exn msg =>
    ⟨false, "Error processing command: " ++ msg, objList tasks, none⟩
  | .badStatus text =>
    ⟨false, "LLM API error: " ++ text, objList tasks, none⟩
  | .okBody body parse =>
    match extractJson body with
    | none => ⟨false, "Failed to parse LLM response", objList tasks, none⟩
    | some _ =>
      match parse with
      | .failed =>
        ⟨false, "Failed to parse JSON from LLM response", objList tasks, none⟩
      | .nonObject errDesc =>
        ⟨false, "Error processing command: " ++ errDesc, objList tasks, none⟩
      | .okObj p =>
        ⟨true, p.message.getD "Command processed",
          p.tasks.getD (objList tasks), some (p.action.getD "LIST")⟩

/-! ## Fallback Interpreter (`LLMProcessor.fallback_process`) -/

/-- Try to strip one anchored verb followed by mandatory whitespace
(`^verb\s+`, the `\s+` greedy). -/
def stripVerbWith (verb c : List Char) : Option (List Char) :=
  if verb.isPrefixOf c then
    match c.drop verb.length with
    | [] => none
    | r :: rest => if pyIsSpace r then some ((r :: rest).dropWhile pyIsSpace) else none
  else none

/-- `re.sub(r'^(add|create)\s+', '', command)`: the alternation tries
`add` first, then `create`; no match leaves the string unchanged. -/
def stripVerb (c : List Char) : List Char :=
  match stripVerbWith "add".data c with
  | some r => r
  | none =>
    match stripVerbWith "create".data c with
    | some r => r
    | none => c

/-- The `priority_order` dict of `fallback_process` (its `.get(_, 4)`
default is unreachable: a `Task.priority` is always one of the four enum
members). -/
def priorityOrder : Priority → Nat
  | .urgent => 0
  | .high => 1
  | .medium => 2
  | .low => 3

/-- Insertion step of a stable sort on the `priority_order` key. -/
def insertByKey (t : Task) : List Task → List Task
  | [] => [t]
  | x :: xs =>
    if priorityOrder x.priority < priorityOrder t.priority then
      x :: insertByKey t xs
    else
      t :: x :: xs

/-- `sorted(tasks, key=lambda t: priority_order.get(t.priority, 4))`:
Python's `sorted` is a stable sort by the key, embedded here as stable
insertion sort (extensionally equal to any stable sort by the key). -/
def sortByPriority : List Task → List Task
  | [] => []
  | x :: xs => insertByKey x (sortByPriority xs)

/-- Return value of `fallback_process` together with the content of the
*caller's* list object after the call: the list is passed by reference,
and the `ADD` branch appends to it in place, so the caller (the store,
whose `self.tasks` is that very object) observes the append. -/
structure FallbackOut where
  result : LLMResult
  callerTasks : List Task
deriving DecidableEq, Repr

/-- The task built by the `ADD` branch of `fallback_process`
(lines 158–162): `Task(id=len(tasks)+1, title=title, created_at=now)`,
all other fields at their pydantic defaults. -/
def fallbackNewTask (title : List Char) (n : Nat) (now : String) : Task :=
  { id := some ((n : Int) + 1)
    title := ⟨title⟩
    description := none
    priority := .medium
    due_date := none
    status := .todo
    tags := []
    created_at := some now }

/-- `LLMProcessor.fallback_process`.  Mirrors the source's branch
structure: an `add`/`create` command whose stripped title is empty falls
through every `elif` to the final default return. -/
def fallbackProcess (command : String) (tasks : List Task) (now : String) :
    FallbackOut :=
  let c := pyStrip (pyLower command.data)
  if hasSub c "add".data || hasSub c "create".data then
    let title := pyStrip (stripVerb c)
    if title = [] then
      { result := ⟨true, "Showing all tasks", objList tasks, some "LIST"⟩
        callerTasks := tasks }
    else
      let newTask : Task := fallbackNewTask title tasks.length now
      let tasks' := tasks ++ [newTask]
      { result := ⟨true, "Added task: " ++ (⟨title⟩ : String),
          objList tasks', some "ADD"⟩
        callerTasks := tasks' }
  else if hasSub c "list".data then
    { result := ⟨true, "Here are your tasks", objList tasks, some "LIST"⟩
      callerTasks := tasks }
  else if hasSub c "prioritize".data || hasSub c "sort".data then
    { result := ⟨true, "Tasks sorted by priority",
        objList (sortByPriority tasks), some "PRIORITIZE"⟩
      callerTasks := tasks }
  else
    { result := ⟨true, "Showing all tasks", objList tasks, some "LIST"⟩
      callerTasks := tasks }

/-! ## Command Orchestrator (`TaskManager.process_command`) -/

/-- Lines 326–340 of `TaskManager.process_command`: commit the chosen
interpreter result (every result dict carries a `"tasks"` key, so the
`"tasks" in result` guard reduces to the success test) and build the
response; an exception escaping `update_tasks_from_llm` is caught by the
orchestrator's `except`, which reports failure over the untouched store. -/
def commitResult (result : LLMResult) (now : String) (mgr : TaskManager) :
    TaskResponse × TaskManager :=
  if result.success then
    match updateTasksFromLLM result.tasks now mgr with
    | .ok mgrB => (⟨result.success, result.message, mgrB.tasks⟩, mgrB)
    | .error e => (⟨false, "Error processing command: " ++ e, mgr.tasks⟩, mgr)
  else
    (⟨result.success, result.message, mgr.tasks⟩, mgr)

/-- `TaskManager.process_command`: try the LLM interpreter, fall back on
its failure (the fallback call aliases `self.tasks`, hence the state
update to `callerTasks`), then commit. -/
def processCommand (reply : LLMReply) (command now : String)
    (mgr : TaskManager) : TaskResponse × TaskManager :=
  let r0 := llmProcessCommand reply mgr.tasks
  let (result, mgrA) :=
    if r0.success then (r0, mgr)
    else
      let fb := fallbackProcess command mgr.tasks now
      (fb.result, { mgr with tasks := fb.callerTasks })
  commitResult result now mgrA

/-! ## Sample data (used by witnesses and counterexamples) -/

/-- A low-priority sample task. -/
def sampleLow : Task :=
  ⟨some 1, "write report", none, .low, none, .todo, [], some "T0"⟩

/-- An urgent sample task. -/
def sampleUrgent : Task :=
  ⟨some 2, "fix outage", none, .urgent, none, .todo, [], some "T0"⟩

/-- A medium-priority sample task. -/
def sampleMedium : Task :=
  ⟨some 3, "buy milk", none, .medium, none, .todo, [], some "T0"⟩

/-- The seeded "Buy groceries" task of `main.py`. -/
def groceriesTask : Task :=
  ⟨some 1, "Buy groceries", some "Milk, eggs, bread, vegetables",
    .medium, none, .todo, ["personal", "shopping"], some "T0"⟩

/-! ## Lemmas about the stable priority sort -/

theorem insertByKey_perm (t : Task) (l : List Task) :
    (insertByKey t l).Perm (t :: l) := by
  induction l with
  | nil => exact List.Perm.refl _
  | cons x xs ih =>
    unfold insertByKey
    by_cases hk : priorityOrder x.priority < priorityOrder t.priority
    · simp only [if_pos hk]
      exact (ih.cons x).trans (List.Perm.swap t x xs)
    · simp only [if_neg hk]
      exact List.Perm.refl _

theorem sortByPriority_perm (l : List Task) :
    (sortByPriority l).Perm l := by
  induction l with
  | nil => exact List.Perm.refl _
  | cons x xs ih =>
    exact (insertByKey_perm x (sortByPriority xs)).trans (ih.cons x)

theorem insertByKey_pairwise (t : Task) (l : List Task)
    (h : l.Pairwise (fun a b => priorityOrder a.priority ≤ priorityOrder b.priority)) :
    (insertByKey t l).Pairwise
      (fun a b => priorityOrder a.priority ≤ priorityOrder b.priority) := by
  induction l with
  | nil => simp [insertByKey]
  | cons x xs ih =>
    rw [List.pairwise_cons] at h
    obtain ⟨hx, hxs⟩ := h
    unfold insertByKey
    by_cases hk : priorityOrder x.priority < priorityOrder t.priority
    · simp only [if_pos hk]
      rw [List.pairwise_cons]
      constructor
      · intro y hy
        have hy' : y ∈ t :: xs := (insertByKey_perm t xs).mem_iff.mp hy
        rcases List.mem_cons.mp hy' with hy' | hy'
        · subst hy'; exact le_of_lt hk
        · exact hx y hy'
      · exact ih hxs
    · simp only [if_neg hk]
      rw [List.pairwise_cons]
      constructor
      · intro y hy
        rcases List.mem_cons.mp hy with hy | hy
        · subst hy; exact le_of_not_lt hk
        · exact le_trans (le_of_not_lt hk) (hx y hy)
      · rw [List.pairwise_cons]; exact ⟨hx, hxs⟩

theorem sortByPriority_pairwise (l : List Task) :
    (sortByPriority l).Pairwise
      (fun a b => priorityOrder a.priority ≤ priorityOrder b.priority) := by
  induction l with
  | nil => simp [sortByPriority]
  | cons x xs ih => exact insertByKey_pairwise x (sortByPriority xs) ih

theorem priorityOrder_injective (p q : Priority)
    (h : priorityOrder p = priorityOrder q) : p = q := by
  cases p <;> cases q <;> first | rfl | simp [priorityOrder] at h

theorem insertByKey_filter (t : Task) (l : List Task) (p : Priority) :
    (insertByKey t l).filter (fun x => decide (x.priority = p)) =
      (t :: l).filter (fun x => decide (x.priority = p)) := by
  induction l with
  | nil => rfl
  | cons x xs ih =>
    unfold insertByKey
    by_cases hk : priorityOrder x.priority < priorityOrder t.priority
    · simp only [if_pos hk]
      by_cases hx : x.priority = p <;> by_cases ht : t.priority = p
      · exact absurd (priorityOrder_injective x.priority t.priority
          (by rw [hx, ht])) (fun hpq => absurd (hpq ▸ hk) (lt_irrefl _))
      · simp only [List.filter_cons, hx, ht] at ih ⊢
        simp [hx, ht, ih]
      · simp only [List.filter_cons, hx, ht] at ih ⊢
        simp [hx, ht, ih]
      · simp only [List.filter_cons, hx, ht] at ih ⊢
        simp [hx, ht, ih]
    · simp only [if_neg hk]

theorem sortByPriority_filter (l : List Task) (p : Priority) :
    (sortByPriority l).filter (fun x => decide (x.priority = p)) =
      l.filter (fun x => decide (x.priority = p)) := by
  induction l with
  | nil => rfl
  | cons x xs ih =>
    show (insertByKey x (sortByPriority xs)).filter _ = _
    rw [insertByKey_filter]
    by_cases hx : x.priority = p
    · simp only [List.filter_cons, hx]
      simp [ih]
    · simp only [List.filter_cons, hx]
      simp [ih]

/-! ## Helper lemmas about the fallback interpreter and the commit step -/

theorem fallbackProcess_success (command : String) (tasks : List Task)
    (now : String) :
    (fallbackProcess command tasks now).result.success = true := by
  simp only [fallbackProcess]
  split
  · split <;> rfl
  · split
    · rfl
    · split <;> rfl

theorem fallbackProcess_tasks_objList (command : String) (tasks : List Task)
    (now : String) :
    ∃ l, (fallbackProcess command tasks now).result.tasks = objList l := by
  simp only [fallbackProcess]
  split
  · split
    · exact ⟨tasks, rfl⟩
    · exact ⟨_, rfl⟩
  · split
    · exact ⟨tasks, rfl⟩
    · split
      · exact ⟨sortByPriority tasks, rfl⟩
      · exact ⟨tasks, rfl⟩

theorem updateTasksFromLLM_list_ok (fs : List Fragment) (now : String)
    (m : TaskManager) :
    updateTasksFromLLM (.list fs) now m =
      .ok { (assignIds m (fs.filterMap (fun f => convertFragment f now))).2 with
        tasks := (assignIds m (fs.filterMap (fun f => convertFragment f now))).1 } :=
  rfl

theorem commitResult_failure_frame (result : LLMResult) (now : String)
    (mgr : TaskManager)
    (h : (commitResult result now mgr).1.success = false) :
    (commitResult result now mgr).1.tasks = mgr.tasks ∧
      (commitResult result now mgr).2 = mgr := by
  cases hb : result.success with
  | false => constructor <;> simp [commitResult, hb]
  | true =>
    cases hu : updateTasksFromLLM result.tasks now mgr with
    | ok m' =>
      simp [commitResult, hb, hu] at h
    | error e =>
      constructor <;> simp [commitResult, hb, hu]

theorem commitResult_success_of_list (result : LLMResult) (now : String)
    (mgr : TaskManager) (hs : result.success = true) (fs : List Fragment)
    (hts : result.tasks = .list fs) :
    (commitResult result now mgr).1.success = true := by
  unfold commitResult
  rw [if_pos hs, hts, updateTasksFromLLM_list_ok]
  exact hs

/--
**C2** (error_handling): for every prior state and every command, whenever
orchestration reports failure (`success = false`, which in the source can
only arise from an exception caught at the orchestrator boundary, line
335), the returned `tasks` payload equals the prior snapshot and the
store is left exactly at its last committed state — never partially
applied.
-/
theorem c2_failure_leaves_store_unchanged (reply : LLMReply)
    (command now : String) (mgr : TaskManager)
    (h : (processCommand reply command now mgr).1.success = false) :
    (processCommand reply command now mgr).1.tasks = mgr.tasks ∧
      (processCommand reply command now mgr).2 = mgr := by
  cases hb : (llmProcessCommand reply mgr.tasks).success with
  | true =>
    simp only [processCommand, hb, if_true, Bool.true_eq, reduceIte] at h ⊢
    exact commitResult_failure_frame _ now mgr h
  | false =>
    simp only [processCommand, hb, if_false, Bool.false_eq_true,
      reduceIte] at h ⊢
    obtain ⟨l, hl⟩ :=
      fallbackProcess_tasks_objList command mgr.tasks now
    have hsucc :=
      commitResult_success_of_list
        (fallbackProcess command mgr.tasks now).result now
        { mgr with tasks := (fallbackProcess command mgr.tasks now).callerTasks }
        (fallbackProcess_success command mgr.tasks now) _ hl
    rw [hsucc] at h
    exact absurd h (by decide)

/-- Closed instance discharging C2's hypothesis: an LLM reply whose parsed
`"tasks"` value is a JSON number, so the commit raises `TypeError` and the
orchestrator reports failure over the untouched store. -/
def c2ReplyWitness : LLMReply :=
  .okBody "\x7b\x7d"
    (.okObj ⟨none, none,
      some (.notIterable "argument of type int is not iterable")⟩)

theorem c2_witness :
    (processCommand c2ReplyWitness "hello" "T1" ⟨[groceriesTask], 2⟩).1.tasks =
        [groceriesTask] ∧
      (processCommand c2ReplyWitness "hello" "T1" ⟨[groceriesTask], 2⟩).2 =
        ⟨[groceriesTask], 2⟩ :=
  c2_failure_leaves_store_unchanged c2ReplyWitness "hello" "T1"
    ⟨[groceriesTask], 2⟩ (by decide)

/--
**C1** (refinement_equivalence) is *false of the code* and the code — not
the claim — is at fault: on LLM failure the orchestrator does call the
fallback interpreter and returns its message, but it then feeds the
fallback's pydantic `Task` objects to `update_tasks_from_llm`, whose very
first statement `task_dict.get("tags")` raises `AttributeError` on every
one of them (pydantic models have no `.get`), so every task is dropped
and the store is committed *empty* — contradicting the source's own
annotation `llm_tasks: List[Dict[str, Any]]` and the documented purpose
of the fallback.  This theorem evaluates the embedding at the failing
input: prior store `[groceriesTask]`, command `"list"`, LLM transport
failure; the fallback's own output is the original one-task list, while
the orchestrator returns and commits `[]`.
-/
theorem c1_llm_failure_commits_empty_list :
    (fallbackProcess "list" [groceriesTask] "T1").result.tasks =
        objList [groceriesTask] ∧
      (fallbackProcess "list" [groceriesTask] "T1").result.message =
        "Here are your tasks" ∧
      (processCommand (.badStatus "connection refused") "list" "T1"
          ⟨[groceriesTask], 2⟩).1 =
        ⟨true, "Here are your tasks", []⟩ ∧
      (processCommand (.badStatus "connection refused") "list" "T1"
          ⟨[groceriesTask], 2⟩).2 = ⟨[], 2⟩ := by
  decide

/--
**C7** (frame_effect), counterexample to the claim as stated: the `ADD`
branch of `fallback_process` appends to the caller's list object itself
(`tasks.append(new_task)`), so invoking the fallback interpreter *does*
mutate the caller's task list.
-/
theorem c7_counterexample :
    (fallbackProcess "add x" [] "T0").callerTasks ≠ ([] : List Task) := by
  decide

/--
**C7** (frame_effect), amended: the `ADD` branch — triggered when the
lowered command contains `"add"` or `"create"` and the text left after
stripping the leading verb is non-empty — builds a task from that text
with default priority `MEDIUM`, default status `TODO` and the current
timestamp (see `fallbackNewTask`), and appends it *to the caller's list
in place* (the list is passed by reference, not by value), which is
therefore observably mutated.
-/
theorem c7_fallback_add_appends_in_place (command : String)
    (tasks : List Task) (now : String)
    (hkw : hasSub (pyStrip (pyLower command.data)) "add".data = true ∨
      hasSub (pyStrip (pyLower command.data)) "create".data = true)
    (htitle : pyStrip (stripVerb (pyStrip (pyLower command.data))) ≠ []) :
    (fallbackProcess command tasks now).callerTasks =
        tasks ++ [fallbackNewTask
          (pyStrip (stripVerb (pyStrip (pyLower command.data))))
          tasks.length now] ∧
      (fallbackProcess command tasks now).result =
        ⟨true,
          "Added task: " ++
            (⟨pyStrip (stripVerb (pyStrip (pyLower command.data)))⟩ : String),
          objList ((fallbackProcess command tasks now).callerTasks),
          some "ADD"⟩ ∧
      (fallbackProcess command tasks now).callerTasks ≠ tasks := by
  have hne : ∀ (l : List Task) (t : Task), l ++ [t] ≠ l := by
    intro l t hl
    have := congrArg List.length hl
    simp at this
  rcases hkw with hkw | hkw <;>
    refine ⟨?_, ?_, ?_⟩ <;>
      simp [fallbackProcess, hkw, htitle, hne]

theorem c7_witness :
    (fallbackProcess "add buy milk" [] "T1").callerTasks =
        [] ++ [fallbackNewTask
          (pyStrip (stripVerb (pyStrip (pyLower "add buy milk".data))))
          (List.length ([] : List Task)) "T1"] ∧
      (fallbackProcess "add buy milk" [] "T1").result =
        ⟨true,
          "Added task: " ++
            (⟨pyStrip (stripVerb (pyStrip (pyLower "add buy milk".data)))⟩ :
              String),
          objList ((fallbackProcess "add buy milk" [] "T1").callerTasks),
          some "ADD"⟩ ∧
      (fallbackProcess "add buy milk" [] "T1").callerTasks ≠ [] :=
  c7_fallback_add_appends_in_place "add buy milk" [] "T1"
    (Or.inl (by decide)) (by decide)

/--
**C8** (functional_correctness): on a command containing `"prioritize"`
or `"sort"` (and none of the earlier-matching keywords `"add"`,
`"create"`, `"list"`), the fallback interpreter returns the task list
sorted by priority in the order URGENT < HIGH < MEDIUM < LOW: a
permutation of the input, pairwise sorted on the `priority_order` key,
and stable (tasks of equal priority keep their original relative order,
expressed by filter preservation for every priority).
-/
theorem c8_fallback_prioritize_stable_sort (command : String)
    (tasks : List Task) (now : String)
    (hadd : hasSub (pyStrip (pyLower command.data)) "add".data = false)
    (hcreate : hasSub (pyStrip (pyLower command.data)) "create".data = false)
    (hlist : hasSub (pyStrip (pyLower command.data)) "list".data = false)
    (hprio : hasSub (pyStrip (pyLower command.data)) "prioritize".data = true ∨
      hasSub (pyStrip (pyLower command.data)) "sort".data = true) :
    (fallbackProcess command tasks now).result =
        ⟨true, "Tasks sorted by priority", objList (sortByPriority tasks),
          some "PRIORITIZE"⟩ ∧
      (sortByPriority tasks).Perm tasks ∧
      (sortByPriority tasks).Pairwise
        (fun a b => priorityOrder a.priority ≤ priorityOrder b.priority) ∧
      ∀ p : Priority,
        (sortByPriority tasks).filter (fun x => decide (x.priority = p)) =
          tasks.filter (fun x => decide (x.priority = p)) := by
  refine ⟨?_, sortByPriority_perm tasks, sortByPriority_pairwise tasks,
    fun p => sortByPriority_filter tasks p⟩
  rcases hprio with h | h <;> simp [fallbackProcess, hadd, hcreate, hlist, h]

theorem c8_witness :
    ((fallbackProcess "prioritize my tasks"
        [sampleLow, sampleUrgent, sampleMedium] "T1").result =
      ⟨true, "Tasks sorted by priority",
        objList (sortByPriority [sampleLow, sampleUrgent, sampleMedium]),
        some "PRIORITIZE"⟩) ∧
      sortByPriority [sampleLow, sampleUrgent, sampleMedium] =
        [sampleUrgent, sampleMedium, sampleLow] :=
  ⟨(c8_fallback_prioritize_stable_sort "prioritize my tasks"
      [sampleLow, sampleUrgent, sampleMedium] "T1"
      (by decide) (by decide) (by decide) (Or.inl (by decide))).1,
    by decide⟩

/-! ## Lemmas about `update_task` -/

theorem updateTaskAux_found (task_id : Int) (t : Task) :
    ∀ (ts : List Task) (t0 : Task),
      ts.find? (fun x => decide (x.id = some task_id)) = some t0 →
      (updateTaskAux task_id t ts).1 =
        some { t with
          id := some task_id,
          created_at :=
            if pyFalsyStr t.created_at then t0.created_at
            else t.created_at } := by
  intro ts
  induction ts with
  | nil => intro t0 h; simp [List.find?] at h
  | cons x xs ih =>
    intro t0 h
    by_cases hx : x.id = some task_id
    · rw [List.find?_cons_of_pos _ (by simp [hx])] at h
      obtain rfl : x = t0 := by injection h
      simp [updateTaskAux, hx]
    · rw [List.find?_cons_of_neg _ (by simp [hx])] at h
      simpa [updateTaskAux, hx] using ih t0 h

theorem updateTaskAux_notFound (task_id : Int) (t : Task) :
    ∀ ts : List Task,
      ts.find? (fun x => decide (x.id = some task_id)) = none →
      updateTaskAux task_id t ts = (none, ts) := by
  intro ts
  induction ts with
  | nil => intro _; rfl
  | cons x xs ih =>
    intro h
    rw [List.find?_cons] at h
    by_cases hx : x.id = some task_id
    · simp [hx] at h
    · simp only [hx, decide_eq_true_eq, if_neg] at h
      simp [updateTaskAux, hx, ih (by simpa using h)]

theorem updateTask_found (m : TaskManager) (task_id : Int) (t t0 : Task)
    (h0 : getTask m task_id = some t0) (hca : t.created_at = none) :
    ∃ u, (updateTask m task_id t).1 = some u ∧ u.id = some task_id ∧
      u.created_at = t0.created_at := by
  have hfound := updateTaskAux_found task_id t m.tasks t0 h0
  refine ⟨{ t with
    id := some task_id,
    created_at :=
      if pyFalsyStr t.created_at then t0.created_at
      else t.created_at }, ?_, rfl, ?_⟩
  · show (updateTaskAux task_id t m.tasks).1 = _
    exact hfound
  · simp [hca, pyFalsyStr]

theorem updateTask_notFound (m : TaskManager) (task_id : Int) (t : Task)
    (h0 : getTask m task_id = none) :
    (updateTask m task_id t).1 = none ∧ (updateTask m task_id t).2 = m := by
  have hnf := updateTaskAux_notFound task_id t m.tasks h0
  constructor
  · show (updateTaskAux task_id t m.tasks).1 = none
    rw [hnf]
  · show ({ m with tasks := (updateTaskAux task_id t m.tasks).2 } :
      TaskManager) = m
    rw [hnf]

/--
**C5** (functional_correctness): for every stored task with identifier
`task_id` and every replacement task `t` with `created_at` unset,
`update_task` returns a task with the forced id and the previously stored
task's `created_at`; for an id with no matching stored task it returns
`None` and the store is unchanged.
-/
theorem c5_update_task_spec (m : TaskManager) (task_id : Int) (t : Task) :
    (∀ t0, getTask m task_id = some t0 → t.created_at = none →
      ∃ u, (updateTask m task_id t).1 = some u ∧ u.id = some task_id ∧
        u.created_at = t0.created_at) ∧
    (getTask m task_id = none →
      (updateTask m task_id t).1 = none ∧ (updateTask m task_id t).2 = m) :=
  ⟨fun t0 h0 hca => updateTask_found m task_id t t0 h0 hca,
    fun h0 => updateTask_notFound m task_id t h0⟩

/-- A replacement task with unset id and unset `created_at`. -/
def replacementTask : Task :=
  ⟨none, "write report v2", none, .high, none, .in_progress, [], none⟩

theorem c5_witness :
    (∃ u, (updateTask ⟨[sampleLow], 7⟩ 1 replacementTask).1 = some u ∧
      u.id = some 1 ∧ u.created_at = sampleLow.created_at) ∧
    (updateTask ⟨[sampleLow], 7⟩ 3 replacementTask).1 = none ∧
      (updateTask ⟨[sampleLow], 7⟩ 3 replacementTask).2 = ⟨[sampleLow], 7⟩ :=
  ⟨(c5_update_task_spec ⟨[sampleLow], 7⟩ 1 replacementTask).1 sampleLow
      (by decide) rfl,
    (c5_update_task_spec ⟨[sampleLow], 7⟩ 3 replacementTask).2 (by decide)⟩

/--
**C3** (invariants), counterexample to the claim as stated: a full-list
replacement that re-commits a task with the same identity (`id = 1`, even
the same title) but whose fragment omits the `created_at` key does *not*
keep the original `created_at` — `Task.__init__` stamps a fresh
construction-time value, and `update_tasks_from_llm` never looks up the
old task by id.
-/
theorem c3_counterexample :
    updateTasksFromLLM
        (.list [.dict ⟨some 1, some "write report", none, none, none, none,
          none, none⟩]) "T9" ⟨[sampleLow], 2⟩ =
      .ok ⟨[⟨some 1, "write report", none, .medium, none, .todo, [],
        some "T9"⟩], 2⟩ ∧
    (some "T9" : Option String) ≠ sampleLow.created_at :=
  ⟨rfl, by decide⟩

/--
**C3** (invariants), amended: `created_at` is assigned at construction
exactly when absent from the input, and is preserved by `update(id, t)`
with `t.created_at` unset; a full-list replacement preserves a task's
`created_at` exactly when the re-committed fragment itself carries the
`created_at` field — a fragment omitting it gets a fresh
construction-time timestamp regardless of any id match.
-/
theorem c3_created_at_provenance :
    (∀ (m : TaskManager) (task_id : Int) (t t0 : Task),
      getTask m task_id = some t0 → t.created_at = none →
      ∃ u, (updateTask m task_id t).1 = some u ∧
        u.created_at = t0.created_at) ∧
    (∀ (d : TaskDict) (now : String) (v : Option String) (tk : Task),
      d.created_at = some v → mkTaskFromDict d now = some tk →
      tk.created_at = v) ∧
    (∀ (d : TaskDict) (now : String) (tk : Task),
      d.created_at = none → mkTaskFromDict d now = some tk →
      tk.created_at = some now) := by
  refine ⟨?_, ?_, ?_⟩
  · intro m task_id t t0 h0 hca
    obtain ⟨u, hu, _, hc⟩ := updateTask_found m task_id t t0 h0 hca
    exact ⟨u, hu, hc⟩
  · intro d now v tk hd htk
    cases ht : d.title with
    | none => simp [mkTaskFromDict, ht] at htk
    | some ttl =>
      simp only [mkTaskFromDict, ht, Option.some.injEq] at htk
      rw [← htk]
      simp [hd]
  · intro d now tk hd htk
    cases ht : d.title with
    | none => simp [mkTaskFromDict, ht] at htk
    | some ttl =>
      simp only [mkTaskFromDict, ht, Option.some.injEq] at htk
      rw [← htk]
      simp [hd]

theorem c3_witness :
    (∃ u, (updateTask ⟨[sampleUrgent], 9⟩ 2 replacementTask).1 = some u ∧
      u.created_at = sampleUrgent.created_at) ∧
    (⟨some 2, "fix outage", none, .medium, none, .todo, [], some "T0"⟩ :
        Task).created_at = some "T0" :=
  ⟨c3_created_at_provenance.1 ⟨[sampleUrgent], 9⟩ 2 replacementTask
      sampleUrgent (by decide) rfl,
    c3_created_at_provenance.2.1
      ⟨some 2, some "fix outage", none, none, none, none, none,
        some (some "T0")⟩ "T9" (some "T0")
      ⟨some 2, "fix outage", none, .medium, none, .todo, [], some "T0"⟩
      rfl (by decide)⟩

/-! ## Operation sequences over the store (for C4) -/

/-- A store operation that may be interleaved between `add` calls:
direct CRUD calls or an interpreter-driven full replacement. -/
inductive Op
  | addOp (t : Task)
  | deleteOp (task_id : Int)
  | updateOp (task_id : Int) (t : Task)
  | replaceOp (fs : List Fragment) (now : String)

/-- State effect of one operation. -/
def applyOp (m : TaskManager) : Op → TaskManager
  | .addOp t => (addTask m t).2
  | .deleteOp i => (deleteTask m i).2
  | .updateOp i t => (updateTask m i t).2
  | .replaceOp fs now =>
    match updateTasksFromLLM (.list fs) now m with
    | .ok m' => m'
    | .error _ => m

/-- State effect of a sequence of operations. -/
def applyOps (m : TaskManager) (ops : List Op) : TaskManager :=
  ops.foldl applyOp m

theorem assignTaskId_next_le (m : TaskManager) (t : Task) :
    m.next_id ≤ (assignTaskId m t).2.next_id := by
  unfold assignTaskId
  split
  · simp
  · simp

theorem assignIds_next_le (ts : List Task) :
    ∀ m : TaskManager, m.next_id ≤ (assignIds m ts).2.next_id := by
  induction ts with
  | nil => intro m; exact le_refl _
  | cons t ts ih =>
    intro m
    by_cases h : t.id = none
    · simp only [assignIds, h, if_pos]
      calc m.next_id ≤ (assignTaskId m t).2.next_id :=
            assignTaskId_next_le m t
        _ ≤ _ := ih (assignTaskId m t).2
    · simp only [assignIds, h, if_neg, ite_false]
      exact ih m

theorem applyOp_next_le (m : TaskManager) (op : Op) :
    m.next_id ≤ (applyOp m op).next_id := by
  cases op with
  | addOp t =>
    show m.next_id ≤ (addTask m t).2.next_id
    unfold addTask
    exact assignTaskId_next_le m t
  | deleteOp i => exact le_refl _
  | updateOp i t => exact le_refl _
  | replaceOp fs now =>
    show m.next_id ≤
      (match updateTasksFromLLM (.list fs) now m with
        | .ok m' => m'
        | .error _ => m).next_id
    rw [updateTasksFromLLM_list_ok]
    exact assignIds_next_le _ m

theorem applyOps_next_le (ops : List Op) :
    ∀ m : TaskManager, m.next_id ≤ (applyOps m ops).next_id := by
  induction ops with
  | nil => intro m; exact le_refl _
  | cons op ops ih =>
    intro m
    calc m.next_id ≤ (applyOp m op).next_id := applyOp_next_le m op
      _ ≤ _ := ih (applyOp m op)

theorem addTask_unset_id (m : TaskManager) (t : Task) (h : t.id = none) :
    (addTask m t).1.id = some m.next_id ∧
      (addTask m t).2.next_id = m.next_id + 1 := by
  simp [addTask, assignTaskId, h]

/--
**C4** (invariants): ids assigned by the store are strictly increasing in
assignment order — an `add` of an id-less task is stamped with the
current counter value, and after *any* interleaved sequence of `delete`,
`update`, `add` and interpreter-driven `replace_all` operations a later
`add` is stamped with a strictly larger value (so store-assigned ids are
unique and never reuse a retired id); and a replacement with the empty
list leaves the store with zero tasks while the counter keeps its prior
high-water mark.
-/
theorem c4_ids_strictly_increasing (m : TaskManager) (t1 t2 : Task)
    (ops : List Op) (now : String) (h1 : t1.id = none) (h2 : t2.id = none) :
    (addTask m t1).1.id = some m.next_id ∧
      (addTask (applyOps (addTask m t1).2 ops) t2).1.id =
        some (applyOps (addTask m t1).2 ops).next_id ∧
      m.next_id < (applyOps (addTask m t1).2 ops).next_id ∧
      updateTasksFromLLM (.list []) now m = .ok { m with tasks := [] } := by
  refine ⟨(addTask_unset_id m t1 h1).1,
    (addTask_unset_id _ t2 h2).1, ?_, rfl⟩
  have ha := (addTask_unset_id m t1 h1).2
  have hb := applyOps_next_le ops (addTask m t1).2
  omega

/-- An interleaving of deletes, empty and non-empty replacements, and an
add, exercising every operation kind of C4. -/
def c4Ops : List Op :=
  [.deleteOp 1, .replaceOp [] "T2", .addOp sampleMedium,
    .replaceOp [.dict ⟨none, some "x", none, none, none, none, none, none⟩]
      "T3"]

theorem c4_witness :
    (addTask ⟨[], 1⟩ replacementTask).1.id =
        some (⟨[], 1⟩ : TaskManager).next_id ∧
      (addTask (applyOps (addTask ⟨[], 1⟩ replacementTask).2 c4Ops)
          replacementTask).1.id =
        some (applyOps (addTask ⟨[], 1⟩ replacementTask).2 c4Ops).next_id ∧
      (⟨[], 1⟩ : TaskManager).next_id <
        (applyOps (addTask ⟨[], 1⟩ replacementTask).2 c4Ops).next_id ∧
      updateTasksFromLLM (.list []) "T4" ⟨[], 1⟩ =
        .ok { (⟨[], 1⟩ : TaskManager) with tasks := [] } :=
  c4_ids_strictly_increasing ⟨[], 1⟩ replacementTask replacementTask c4Ops
    "T4" rfl rfl

/-! ## Normalization table lemmas (for C9) -/

theorem priority_canonical_cases (s : String)
    (hc : canonicalPriorityStrings.contains s = true) :
    s = "low" ∨ s = "medium" ∨ s = "high" ∨ s = "urgent" := by
  have hm : s ∈ canonicalPriorityStrings := by
    simpa using hc
  simpa [canonicalPriorityStrings] using hm

theorem status_canonical_cases (s : String)
    (hc : canonicalStatusStrings.contains s = true) :
    s = "todo" ∨ s = "in_progress" ∨ s = "done" := by
  have hm : s ∈ canonicalStatusStrings := by
    simpa using hc
  simpa [canonicalStatusStrings] using hm

theorem normalizePriority_eq_map (s : String) :
    normalizePriority s = (priorityMap (pyLowerStr s)).getD .medium := by
  unfold normalizePriority
  cases hc : canonicalPriorityStrings.contains s with
  | false => simp
  | true =>
    rw [if_pos rfl]
    rcases priority_canonical_cases s hc with rfl | rfl | rfl | rfl <;> decide

/--
**C9** (functional_correctness): the priority and status clean-up steps
of `update_tasks_from_llm` follow fixed case-insensitive synonym tables —
for priority, critical/urgent ↦ URGENT, high ↦ HIGH, medium/normal ↦
MEDIUM, low ↦ LOW, any other non-canonical value ↦ MEDIUM; for status,
"to do"/"todo" ↦ TODO, "in progress"/"in-progress" ↦ IN_PROGRESS,
done/completed/finished ↦ DONE, any other non-canonical value ↦ TODO —
and the canonical lowercase enum values pass through unchanged.
-/
theorem c9_normalization_tables :
    (∀ s : String,
      ((pyLowerStr s = "critical" ∨ pyLowerStr s = "urgent") →
        normalizePriority s = .urgent) ∧
      (pyLowerStr s = "high" → normalizePriority s = .high) ∧
      ((pyLowerStr s = "medium" ∨ pyLowerStr s = "normal") →
        normalizePriority s = .medium) ∧
      (pyLowerStr s = "low" → normalizePriority s = .low) ∧
      (canonicalPriorityStrings.contains s = false →
        priorityMap (pyLowerStr s) = none → normalizePriority s = .medium)) ∧
    (∀ s : String,
      ((pyLowerStr s = "to do" ∨ pyLowerStr s = "todo") →
        normalizeStatus s = .todo) ∧
      ((pyLowerStr s = "in progress" ∨ pyLowerStr s = "in-progress") →
        normalizeStatus s = .in_progress) ∧
      ((pyLowerStr s = "done" ∨ pyLowerStr s = "completed" ∨
          pyLowerStr s = "finished") → normalizeStatus s = .done) ∧
      (canonicalStatusStrings.contains s = false →
        statusMap (pyLowerStr s) = none → normalizeStatus s = .todo)) ∧
    (normalizePriority "low" = .low ∧ normalizePriority "medium" = .medium ∧
      normalizePriority "high" = .high ∧
      normalizePriority "urgent" = .urgent ∧
      normalizeStatus "todo" = .todo ∧
      normalizeStatus "in_progress" = .in_progress ∧
      normalizeStatus "done" = .done) := by
  refine ⟨fun s => ⟨?_, ?_, ?_, ?_, ?_⟩, fun s => ⟨?_, ?_, ?_, ?_⟩,
    by decide⟩
  · intro h
    rw [normalizePriority_eq_map]
    rcases h with h | h <;> rw [h] <;> decide
  · intro h
    rw [normalizePriority_eq_map, h]
    decide
  · intro h
    rw [normalizePriority_eq_map]
    rcases h with h | h <;> rw [h] <;> decide
  · intro h
    rw [normalizePriority_eq_map, h]
    decide
  · intro hc hm
    unfold normalizePriority
    rw [hc]
    simp [hm]
  · intro h
    cases hc : canonicalStatusStrings.contains s with
    | true =>
      rcases status_canonical_cases s hc with rfl | rfl | rfl <;>
        revert h <;> decide
    | false =>
      have : normalizeStatus s = (statusMap (pyLowerStr s)).getD .todo := by
        unfold normalizeStatus
        rw [hc]
        simp
      rw [this]
      rcases h with h | h <;> rw [h] <;> decide
  · intro h
    cases hc : canonicalStatusStrings.contains s with
    | true =>
      rcases status_canonical_cases s hc with rfl | rfl | rfl <;>
        revert h <;> decide
    | false =>
      have : normalizeStatus s = (statusMap (pyLowerStr s)).getD .todo := by
        unfold normalizeStatus
        rw [hc]
        simp
      rw [this]
      rcases h with h | h <;> rw [h] <;> decide
  · intro h
    cases hc : canonicalStatusStrings.contains s with
    | true =>
      rcases status_canonical_cases s hc with rfl | rfl | rfl <;>
        revert h <;> decide
    | false =>
      have : normalizeStatus s = (statusMap (pyLowerStr s)).getD .todo := by
        unfold normalizeStatus
        rw [hc]
        simp
      rw [this]
      rcases h with h | h | h <;> rw [h] <;> decide
  · intro hc hm
    unfold normalizeStatus
    rw [hc]
    simp [hm]

theorem c9_witness :
    normalizePriority "Critical" = .urgent ∧
      normalizePriority "weird" = .medium ∧
      normalizeStatus "In-Progress" = .in_progress ∧
      normalizeStatus "FINISHED" = .done :=
  ⟨(c9_normalization_tables.1 "Critical").1 (Or.inl (by decide)),
    (c9_normalization_tables.1 "weird").2.2.2.2 (by decide) (by decide),
    (c9_normalization_tables.2.1 "In-Progress").2.1 (Or.inr (by decide)),
    (c9_normalization_tables.2.1 "FINISHED").2.2.1
      (Or.inr (Or.inr (by decide)))⟩

/--
**C10** (security_hyperproperties): the committed task list and the
returned response are independent of the interpreter's `action`
classification — for any two interpreter results identical except for
their `action` field, the orchestrator's commit step produces the same
response and the same store state (the source never reads
`result["action"]`).
-/
theorem c10_commit_ignores_action (r : LLMResult) (a1 a2 : Option String)
    (now : String) (mgr : TaskManager) :
    commitResult { r with action := a1 } now mgr =
      commitResult { r with action := a2 } now mgr := rfl

/-! ## Extraction characterization (for C6) -/

/-- Index of the first occurrence of `c` in `s`. -/
def firstIdxOf (s : List Char) (c : Char) : Option Nat :=
  match s with
  | [] => none
  | a :: rest => if a = c then some 0 else (firstIdxOf rest c).map (· + 1)

/-- Declarative description of the brace fallback regex: the span from
the first `{` of the text to its last `}`, provided the former precedes
the latter. -/
def braceSpanSpec (s : List Char) : Option (List Char) :=
  match firstIdxOf s '\x7b', lastIdxOf s '\x7d' with
  | some i, some j =>
    if i < j then some ((s.drop i).take (j + 1 - i)) else none
  | _, _ => none

theorem braceSpanSpec_none_right (s : List Char)
    (hl : lastIdxOf s '\x7d' = none) : braceSpanSpec s = none := by
  cases hf : firstIdxOf s '\x7b' <;> simp [braceSpanSpec, hf, hl]

theorem braceSpanSpec_cons (a : Char) (rest : List Char)
    (ha : ¬(a = '\x7b')) :
    braceSpanSpec (a :: rest) = braceSpanSpec rest := by
  cases hf : firstIdxOf rest '\x7b' with
  | none =>
    have hfa : firstIdxOf (a :: rest) '\x7b' = none := by
      simp [firstIdxOf, ha, hf]
    cases hla : lastIdxOf (a :: rest) '\x7d' <;>
      cases hl : lastIdxOf rest '\x7d' <;>
        simp [braceSpanSpec, hfa, hf]
  | some i =>
    have hfa : firstIdxOf (a :: rest) '\x7b' = some (i + 1) := by
      simp [firstIdxOf, ha, hf]
    cases hl : lastIdxOf rest '\x7d' with
    | some j =>
      have hla : lastIdxOf (a :: rest) '\x7d' = some (j + 1) := by
        simp [lastIdxOf, hl]
      simp only [braceSpanSpec, hfa, hf, hla, hl]
      by_cases hij : i < j
      · rw [if_pos (by omega), if_pos hij]
        have harith : j + 1 + 1 - (i + 1) = j + 1 - i := by omega
        rw [List.drop_succ_cons, harith]
      · rw [if_neg (by omega), if_neg hij]
    | none =>
      have hla : lastIdxOf (a :: rest) '\x7d' =
          (if a = '\x7d' then some 0 else none) := by
        simp [lastIdxOf, hl]
      by_cases haj : a = '\x7d'
      · rw [if_pos haj] at hla
        simp [braceSpanSpec, hfa, hla, hf, hl]
      · rw [if_neg haj] at hla
        simp [braceSpanSpec, hfa, hla, hf, hl]

theorem braceScan_eq_spec (s : List Char) :
    braceScan s = braceSpanSpec s := by
  induction s with
  | nil => rfl
  | cons a rest ih =>
    by_cases ha : a = '\x7b'
    · subst ha
      cases hl : lastIdxOf rest '\x7d' with
      | some j =>
        have hla : lastIdxOf ('\x7b' :: rest) '\x7d' = some (j + 1) := by
          simp [lastIdxOf, hl]
        have hfa : firstIdxOf ('\x7b' :: rest) '\x7b' = some 0 := by
          simp [firstIdxOf]
        simp [braceScan, braceSpanSpec, hla, hfa]
      | none =>
        have hla : lastIdxOf ('\x7b' :: rest) '\x7d' = none := by
          simp [lastIdxOf, hl]
        rw [show braceScan ('\x7b' :: rest) = braceScan rest from by
          simp [braceScan, hla]]
        rw [ih, braceSpanSpec_none_right rest hl,
          braceSpanSpec_none_right _ hla]
    · rw [show braceScan (a :: rest) = braceScan rest from by
        simp [braceScan, ha]]
      rw [ih, braceSpanSpec_cons a rest ha]

/-- Modelled from the spec's words (claim C6, §4.4(b)): a *balanced*
`{...}` span — scan from an opening `{` tracking nesting depth until the
matching `}`. -/
def balancedSpanAux (depth : Nat) (acc : List Char) :
    List Char → Option (List Char)
  | [] => none
  | c :: rest =>
    if c = '\x7b' then balancedSpanAux (depth + 1) (c :: acc) rest
    else if c = '\x7d' then
      match depth with
      | 0 => none
      | 1 => some (c :: acc).reverse
      | d + 2 => balancedSpanAux (d + 1) (c :: acc) rest
    else balancedSpanAux depth (c :: acc) rest

/-- Modelled from the spec's words (claim C6, §4.4(b)): "the first
top-level `{...}` span in the text" — candidate opening braces are tried
left to right, and the first that closes balanced yields the span. -/
def firstTopLevelSpan (s : List Char) : Option (List Char) :=
  match s with
  | [] => none
  | a :: rest =>
    if a = '\x7b' then
      match balancedSpanAux 1 [a] rest with
      | some span => some span
      | none => firstTopLevelSpan rest
    else firstTopLevelSpan rest

/-- Modelled from the spec's words (claim C6): the extraction procedure
the claim describes — first fenced `json` block, else the first top-level
`{...}` span. To be compared with the code's `extractJson`. -/
def claimedExtractJson (body : String) : Option String :=
  match extractFencedAux body.data with
  | some c => some ⟨c⟩
  | none => (firstTopLevelSpan body.data).map (fun c => (⟨c⟩ : String))

/--
**C6** (functional_correctness), counterexample to the claim as stated:
on a response containing two separate JSON objects, the code's bare-brace
fallback (`(\{[\s\S]*\})`, greedy) extracts the span from the *first* `{`
to the *last* `}` — covering both objects and the text between them — not
"the first top-level `{...}` span" the claim describes.
-/
theorem c6_counterexample :
    extractJson "x \x7b\"a\": 1\x7d y \x7b\"b\": 2\x7d" ≠
        claimedExtractJson "x \x7b\"a\": 1\x7d y \x7b\"b\": 2\x7d" ∧
      extractJson "x \x7b\"a\": 1\x7d y \x7b\"b\": 2\x7d" =
        some "\x7b\"a\": 1\x7d y \x7b\"b\": 2\x7d" ∧
      claimedExtractJson "x \x7b\"a\": 1\x7d y \x7b\"b\": 2\x7d" =
        some "\x7b\"a\": 1\x7d" := by
  decide

/--
**C6** (functional_correctness), amended: given any raw LLM response
text, the interpreter extracts a JSON span by first taking the trimmed
content of the first fenced `json` block; if no such block is present it
takes the span from the *first `{` to the last `}`* of the text (when the
former precedes the latter); and if neither pattern matches, the
interpreter returns a failure result ("Failed to parse LLM response")
carrying the unmodified input task list.
-/
theorem c6_extraction_amended :
    (∀ s : List Char, braceScan s = braceSpanSpec s) ∧
      (∀ (body : String) (parse : ParseOutcome) (ts : List Task),
        extractJson body = none →
        llmProcessCommand (.okBody body parse) ts =
          ⟨false, "Failed to parse LLM response", objList ts, none⟩) ∧
      (∀ (body : String) (c : List Char),
        extractFencedAux body.data = some c →
        extractJson body = some ⟨c⟩) := by
  refine ⟨braceScan_eq_spec, ?_, ?_⟩
  · intro body parse ts h
    simp [llmProcessCommand, h]
  · intro body c h
    simp [extractJson, h]

theorem c6_witness :
    braceScan "ab\x7bc\x7dd".data = braceSpanSpec "ab\x7bc\x7dd".data ∧
      llmProcessCommand (.okBody "no json here" .failed) [sampleLow] =
        ⟨false, "Failed to parse LLM response", objList [sampleLow],
          none⟩ ∧
      extractJson "pre ```json \x7b\x7d ``` post" = some "\x7b\x7d" :=
  ⟨c6_extraction_amended.1 "ab\x7bc\x7dd".data,
    c6_extraction_amended.2.1 "no json here" .failed [sampleLow]
      (by decide),
    c6_extraction_amended.2.2 "pre ```json \x7b\x7d ``` post"
      "\x7b\x7d".data (by decide)⟩

end TaskPilot
